import Mathlib

/-!
# Formal model of `src/web-monitor.py`

A shallow embedding of the core logic of the Web_Monitor repository: the
keyword matcher with its deduplication set (`check_for_keywords`,
lines 182–211), the persistence of the seen-matches record
(`load_seen_matches`, lines 142–154, and `save_seen_matches`, modelled as a
`persist` event), and one iteration of the monitoring loop
(`start_monitoring`, lines 247–290).

Python strings are modelled as Lean `String`s; the Python string primitives
used by the source (`str.lower`, `in`, `str.strip`, `str.split`,
`str.join`) are embedded as structurally recursive functions over the
character list `String.data`, so that every definition evaluates by kernel
reduction.  File input/output and the SMTP/HTTP collaborators are external
to the core and are modelled by explicit inputs (`FileState`, `IterInput`)
and an event trace (`Event`).
-/

namespace WebMonitor

/-- Python `str.lower()`: lowercase every character. -/
def pyLower (s : String) : String := String.mk (s.data.map Char.toLower)

/-- Python `needle in hay`: `needle` occurs contiguously inside `hay`. -/
def pyContains (hay needle : String) : Bool :=
  hay.data.tails.any (fun t => needle.data.isPrefixOf t)

/-- Python `str.strip()`: drop leading and trailing whitespace. -/
def pyStrip (s : String) : String :=
  String.mk (((s.data.dropWhile Char.isWhitespace).reverse.dropWhile Char.isWhitespace).reverse)

/-- Helper for Python `text.split('\n')`: `cur` holds the reversed current piece. -/
def splitNlAux (cur : List Char) : List Char → List (List Char)
  | [] => [cur.reverse]
  | c :: cs => if c = '\n' then cur.reverse :: splitNlAux [] cs else splitNlAux (c :: cur) cs

/-- Python `text.split('\n')`. -/
def pySplitNewline (s : String) : List String := (splitNlAux [] s.data).map String.mk

/-- Helper for Python `str.split()` with no separator: `cur` holds the reversed
current word. -/
def wordsAux (cur : List Char) : List Char → List (List Char)
  | [] => if cur.isEmpty then [] else [cur.reverse]
  | c :: cs =>
    if c.isWhitespace then
      if cur.isEmpty then wordsAux [] cs else cur.reverse :: wordsAux [] cs
    else wordsAux (c :: cur) cs

/-- Python `str.split()` with no separator: the maximal whitespace-free runs,
dropping all whitespace. -/
def pySplitWS (s : String) : List String := (wordsAux [] s.data).map String.mk

/-- Python `' '.join(pieces)`. -/
def pyJoinSpace : List String → String
  | [] => ""
  | [w] => w
  | w :: ws => w ++ " " ++ pyJoinSpace ws

/-- Line 194: `[line.strip() for line in text.split('\n') if line.strip()]` —
split the extracted page text on newlines, strip each line, keep the
non-empty ones. -/
def splitLines (text : String) : List String :=
  ((pySplitNewline text).map pyStrip).filter (fun l => l ≠ "")

/-- Line 199: `all(word.lower() in line_lower for word in self.search_strings)`
where `line_lower = line.lower()`. -/
def matchesLine (terms : List String) (line : String) : Bool :=
  terms.all (fun word => pyContains (pyLower line) (pyLower word))

/-- Line 200: `normalized_line = ' '.join(line_lower.split())` with
`line_lower = line.lower()` — the fingerprint of a line. -/
def normalizeLine (line : String) : String :=
  pyJoinSpace (pySplitWS (pyLower line))

/-- Lines 196–203: the per-line loop of `check_for_keywords`.  Returns the new
matching lines in order of appearance together with the updated
`seen_matches` set. -/
def checkLoop (terms : List String) : List String → Finset String → List String × Finset String
  | [], seen => ([], seen)
  | line :: rest, seen =>
    if matchesLine terms line then
      if normalizeLine line ∈ seen then
        checkLoop terms rest seen
      else
        let r := checkLoop terms rest (insert (normalizeLine line) seen)
        (line :: r.1, r.2)
    else
      checkLoop terms rest seen

/-- Observable side effects of the monitor, in order of occurrence:
`persist s` models `save_seen_matches` writing snapshot `s` of the set to the
durable record (lines 156–162), `emailAttempt ls` models a call to
`send_email_notification` with the new lines `ls` (line 265). -/
inductive Event
  | persist (snapshot : Finset String)
  | emailAttempt (lines : List String)
  deriving DecidableEq

/-- Lines 182–211, `check_for_keywords`: empty content returns `(False, [])`
at once; otherwise the line loop runs and, when new lines were found, the
whole updated set is saved once (lines 205–206) before returning
`(bool(new_matching_lines), new_matching_lines)`.  The HTML-to-text
extraction done by BeautifulSoup is an external collaborator; `text` is the
extracted page text it yields. -/
def check_for_keywords (terms : List String) (text : String) (seen : Finset String) :
    (Bool × List String) × Finset String × List Event :=
  if text = "" then ((false, []), seen, [])
  else
    let r := checkLoop terms (splitLines text) seen
    ((!r.1.isEmpty, r.1), r.2, if r.1.isEmpty then [] else [Event.persist r.2])

/-- The mutable state of `start_monitoring` that crosses iteration
boundaries: the in-memory `seen_matches` set and the `consecutive_errors`
counter (line 254). -/
structure LoopState where
  seen : Finset String
  consecutiveErrors : Nat
  deriving DecidableEq

/-- What the external collaborators supply to one iteration of the loop body
(lines 257–286): `fetchFailed` is `fetch_page_content` returning `None`;
`pageContent text emailOk` is a successful fetch whose extracted text is
`text`, with `emailOk` the result `send_email_notification` would report if
called; `unexpectedError` is an exception reaching the `except` handler at
line 283 (modelled as occurring before any state change of the iteration). -/
inductive IterInput
  | fetchFailed
  | pageContent (text : String) (emailOk : Bool)
  | unexpectedError
  deriving DecidableEq

/-- The value of `consecutive_errors` after the fetch/check/notify part of an
iteration: for the two in-`try` paths this is the value reaching the backoff
decision at line 276; for the exception path it is the value after the
`except` handler incremented it (line 285). -/
def preSleepErrors (terms : List String) (inp : IterInput) (st : LoopState) : Nat :=
  match inp with
  | .fetchFailed => st.consecutiveErrors + 1
  | .pageContent text emailOk =>
    if ((check_for_keywords terms text st.seen).1.2).isEmpty then 0
    else if emailOk then 0 else st.consecutiveErrors + 1
  | .unexpectedError => st.consecutiveErrors + 1

/-- Lines 275–281: the backoff decision at the bottom of the `try` block.
Given the configured interval and the current error counter, returns the
sleep duration and the counter value after the sleep step. -/
def backoffSleep (interval e : Nat) : Nat × Nat :=
  if e > 5 then (interval * 2, 0) else (interval, e)

/-- One iteration of the `while True` body of `start_monitoring`
(lines 257–286).  Returns the new loop state, the slept duration, and the
events of the iteration. -/
def monitorIter (terms : List String) (interval : Nat) (inp : IterInput) (st : LoopState) :
    LoopState × Nat × List Event :=
  match inp with
  | .unexpectedError =>
    (⟨st.seen, st.consecutiveErrors + 1⟩, interval, [])
  | .fetchFailed =>
    let b := backoffSleep interval (preSleepErrors terms IterInput.fetchFailed st)
    (⟨st.seen, b.2⟩, b.1, [])
  | .pageContent text emailOk =>
    let r := check_for_keywords terms text st.seen
    let b := backoffSleep interval (preSleepErrors terms (IterInput.pageContent text emailOk) st)
    (⟨r.2.1, b.2⟩, b.1, r.2.2 ++ if r.1.2.isEmpty then [] else [Event.emailAttempt r.1.2])

/-- Iterating the loop body over a list of external inputs. -/
def runIters (terms : List String) (interval : Nat) (inps : List IterInput) (st : LoopState) :
    LoopState :=
  inps.foldl (fun s i => (monitorIter terms interval i s).1) st

/-- Abstract state of the `seen_matches.json` record as `load_seen_matches`
can encounter it: absent, unreadable/malformed, or a readable list of
fingerprint strings. -/
inductive FileState
  | missing
  | corrupt
  | valid (entries : List String)
  deriving DecidableEq

/-- Lines 142–154, `load_seen_matches`: a missing record yields the empty set
and a fresh empty record is written (line 151); a read/parse failure is
caught by the `except` handler, which logs and yields the empty set
(lines 152–154); a readable record yields `set(json.load(f))`.  The function
is total: no branch raises. -/
def load_seen_matches : FileState → Finset String × FileState
  | .missing => (∅, .valid [])
  | .corrupt => (∅, .corrupt)
  | .valid entries => (entries.toFinset, .valid entries)

/-- Modelled from the spec's description of `Fingerprint`: collapse each
maximal whitespace run to a single space, dropping leading and trailing
whitespace.  `started` records whether a word has been emitted, `pending`
whether whitespace has been seen since. -/
def collapseAux (started pending : Bool) : List Char → List Char
  | [] => []
  | c :: cs =>
    if c.isWhitespace then collapseAux started true cs
    else (if started && pending then [' ', c] else [c]) ++ collapseAux true false cs

/-- Modelled from the spec's description of `Fingerprint`: whitespace
collapse of a character list. -/
def collapseWS (l : List Char) : List Char := collapseAux false false l

/-- Modelled from the spec: "a normalized line signature — lowercase,
internal whitespace collapsed to single spaces". -/
def specFingerprint (line : String) : String :=
  String.mk (collapseWS (line.data.map Char.toLower))

/-- Character-level form of `pyJoinSpace`, used to relate it to `collapseWS`. -/
def jwords : List (List Char) → List Char
  | [] => []
  | [w] => w
  | w :: ws => w ++ ' ' :: jwords ws

/-! ## Lemmas about the per-line loop -/

theorem checkLoop_seen_subset (terms : List String) (lines : List String) (seen : Finset String) :
    seen ⊆ (checkLoop terms lines seen).2 := by
  induction lines generalizing seen with
  | nil => simp [checkLoop]
  | cons line rest ih =>
    by_cases hm : matchesLine terms line
    · by_cases hs : normalizeLine line ∈ seen
      · simpa [checkLoop, hm, hs] using ih seen
      · simp only [checkLoop, hm, if_true, hs, if_false]
        exact (Finset.subset_insert _ _).trans (ih _)
    · simpa [checkLoop, hm] using ih seen

theorem checkLoop_norm_mem (terms : List String) (lines : List String) (seen : Finset String)
    (l : String) (hl : l ∈ lines) (hm : matchesLine terms l = true) :
    normalizeLine l ∈ (checkLoop terms lines seen).2 := by
  induction lines generalizing seen with
  | nil => cases hl
  | cons line rest ih =>
    rcases List.mem_cons.mp hl with rfl | hl'
    · by_cases hs : normalizeLine l ∈ seen
      · simp only [checkLoop, hm, if_true, hs]
        exact checkLoop_seen_subset terms rest seen hs
      · simp only [checkLoop, hm, if_true, hs, if_false]
        exact checkLoop_seen_subset terms rest _ (Finset.mem_insert_self _ _)
    · by_cases hm' : matchesLine terms line
      · by_cases hs : normalizeLine line ∈ seen
        · simpa [checkLoop, hm', hs] using ih seen hl'
        · simp only [checkLoop, hm', if_true, hs, if_false]
          exact ih _ hl'
      · simpa [checkLoop, hm'] using ih seen hl'

theorem checkLoop_fst_nil (terms : List String) (lines : List String) (seen : Finset String)
    (h : ∀ l ∈ lines, matchesLine terms l = true → normalizeLine l ∈ seen) :
    (checkLoop terms lines seen).1 = [] := by
  induction lines with
  | nil => rfl
  | cons line rest ih =>
    by_cases hm : matchesLine terms line
    · have hs : normalizeLine line ∈ seen := h line (List.mem_cons_self _ _) hm
      simp only [checkLoop, hm, if_true, hs]
      exact ih fun l hl => h l (List.mem_cons_of_mem _ hl)
    · simp only [checkLoop, hm, if_false]
      exact ih fun l hl => h l (List.mem_cons_of_mem _ hl)

theorem checkLoop_fst_sublist (terms : List String) (lines : List String) (seen : Finset String) :
    List.Sublist (checkLoop terms lines seen).1 lines := by
  induction lines generalizing seen with
  | nil => simp [checkLoop]
  | cons line rest ih =>
    by_cases hm : matchesLine terms line
    · by_cases hs : normalizeLine line ∈ seen
      · exact (show List.Sublist _ rest by simpa [checkLoop, hm, hs] using ih seen).cons _
      · simp only [checkLoop, hm, if_true, hs, if_false]
        exact (ih _).cons₂ _
    · exact (show List.Sublist _ rest by simpa [checkLoop, hm] using ih seen).cons _

theorem checkLoop_fst_matches (terms : List String) (lines : List String) (seen : Finset String) :
    ∀ l ∈ (checkLoop terms lines seen).1, matchesLine terms l = true := by
  induction lines generalizing seen with
  | nil => simp [checkLoop]
  | cons line rest ih =>
    by_cases hm : matchesLine terms line
    · by_cases hs : normalizeLine line ∈ seen
      · simpa [checkLoop, hm, hs] using ih seen
      · simp only [checkLoop, hm, if_true, hs, if_false]
        intro l hl
        rcases List.mem_cons.mp hl with rfl | hl'
        · exact hm
        · exact ih _ l hl'
    · simpa [checkLoop, hm] using ih seen

theorem checkLoop_not_mem_fst (terms : List String) (lines : List String) (seen : Finset String)
    (l : String) (h : normalizeLine l ∈ seen) :
    l ∉ (checkLoop terms lines seen).1 := by
  induction lines generalizing seen with
  | nil => simp [checkLoop]
  | cons line rest ih =>
    by_cases hm : matchesLine terms line
    · by_cases hs : normalizeLine line ∈ seen
      · simpa [checkLoop, hm, hs] using ih seen h
      · simp only [checkLoop, hm, if_true, hs, if_false]
        intro hmem
        rcases List.mem_cons.mp hmem with rfl | hmem'
        · exact hs h
        · exact ih _ (Finset.mem_insert_of_mem h) hmem'
    · simpa [checkLoop, hm] using ih seen h

/-! ## Substring containment -/

theorem pyContains_eq_true_iff (hay needle : String) :
    pyContains hay needle = true ↔ ∃ s t, s ++ needle.data ++ t = hay.data := by
  constructor
  · intro h
    obtain ⟨t, ht, hp⟩ := List.any_eq_true.mp h
    obtain ⟨s, hs⟩ := (List.mem_tails _ _).mp ht
    obtain ⟨r, hr⟩ := (by simpa using hp : needle.data <+: t)
    exact ⟨s, r, by rw [List.append_assoc, hr, hs]⟩
  · rintro ⟨s, r, h⟩
    refine List.any_eq_true.mpr ⟨needle.data ++ r, (List.mem_tails _ _).mpr ⟨s, ?_⟩, ?_⟩
    · rw [← List.append_assoc, h]
    · simp

/-! ## Claim theorems (matcher) -/

/-- Claim C1: a line passes the keyword test of `check_for_keywords` iff, after
lowercasing the line, every search term (lowercased) occurs in it as a
contiguous substring — an AND over substring containment, with no
token-boundary requirement. -/
theorem c1_and_substring_semantics (terms : List String) (line : String) (_hne : terms ≠ []) :
    matchesLine terms line = true ↔
      ∀ w ∈ terms, ∃ s t, s ++ (pyLower w).data ++ t = (pyLower line).data := by
  simp only [matchesLine, List.all_eq_true, pyContains_eq_true_iff]

/-- Witness for C1 at a concrete line and term list. -/
theorem c1_and_substring_semantics_witness :
    (["alpha", "beta"] : List String) ≠ [] ∧
    (matchesLine ["alpha", "beta"] "has Beta then ALPHA too" = true ↔
      ∀ w ∈ (["alpha", "beta"] : List String),
        ∃ s t, s ++ (pyLower w).data ++ t = (pyLower "has Beta then ALPHA too").data) :=
  ⟨by decide, c1_and_substring_semantics _ _ (by decide)⟩

/-- Claim C2: running `check_for_keywords` a second time on the same page text
against the store produced by the first run yields no new matches: the
returned list is empty and the returned flag is `false`. -/
theorem c2_second_run_empty (terms : List String) (text : String) (seen : Finset String) :
    (check_for_keywords terms text (check_for_keywords terms text seen).2.1).1.2 = [] ∧
    (check_for_keywords terms text (check_for_keywords terms text seen).2.1).1.1 = false := by
  by_cases h : text = ""
  · subst h; simp [check_for_keywords]
  · have hcov : ∀ l ∈ splitLines text, matchesLine terms l = true →
        normalizeLine l ∈ (checkLoop terms (splitLines text) seen).2 :=
      fun l hl hm => checkLoop_norm_mem terms _ seen l hl hm
    have h1 :
        (checkLoop terms (splitLines text) (checkLoop terms (splitLines text) seen).2).1 = [] :=
      checkLoop_fst_nil _ _ _ hcov
    constructor
    · simp [check_for_keywords, if_neg h, h1]
    · simp [check_for_keywords, if_neg h, h1]

/-- Claim C7: the list of new matches returned by `check_for_keywords` is a
sublist of the (stripped, non-empty) lines of the page text — so it consists
of original line texts in their order of appearance — and every returned line
passes the keyword test (in particular it is a line, not a fingerprint). -/
theorem c7_result_order_and_content (terms : List String) (text : String) (seen : Finset String) :
    List.Sublist (check_for_keywords terms text seen).1.2 (splitLines text) ∧
    ∀ l ∈ (check_for_keywords terms text seen).1.2, matchesLine terms l = true := by
  by_cases h : text = ""
  · constructor
    · simp [check_for_keywords, h]
    · simp [check_for_keywords, h]
  · constructor
    · simpa [check_for_keywords, if_neg h] using checkLoop_fst_sublist terms (splitLines text) seen
    · simpa [check_for_keywords, if_neg h] using checkLoop_fst_matches terms (splitLines text) seen

/-- Witness for C7 at the concrete page text
`"Ignore this line\nNew Pickup: Alpha Widget\nUnrelated"`. -/
theorem c7_result_order_and_content_witness :
    List.Sublist (check_for_keywords ["pickup", "alpha"]
        "Ignore this line\nNew Pickup: Alpha Widget\nUnrelated" ∅).1.2
      (splitLines "Ignore this line\nNew Pickup: Alpha Widget\nUnrelated") ∧
    ∀ l ∈ (check_for_keywords ["pickup", "alpha"]
        "Ignore this line\nNew Pickup: Alpha Widget\nUnrelated" ∅).1.2,
      matchesLine ["pickup", "alpha"] l = true :=
  c7_result_order_and_content _ _ _

/-! ## The fingerprint is the whitespace-collapsed lowercase line -/

theorem data_append (s t : String) : (s ++ t).data = s.data ++ t.data := rfl

theorem jwords_cons (w : List Char) (ws : List (List Char)) :
    jwords (w :: ws) = w ++ if ws = [] then [] else ' ' :: jwords ws := by
  cases ws <;> simp [jwords]

theorem pyJoinSpace_data (ws : List (List Char)) :
    (pyJoinSpace (ws.map String.mk)).data = jwords ws := by
  induction ws with
  | nil => rfl
  | cons w ws ih =>
    cases ws with
    | nil => rfl
    | cons w' ws' =>
      calc (pyJoinSpace ((w :: w' :: ws').map String.mk)).data
          = w ++ [' '] ++ (pyJoinSpace ((w' :: ws').map String.mk)).data := rfl
        _ = w ++ [' '] ++ jwords (w' :: ws') := by rw [ih]
        _ = jwords (w :: w' :: ws') := by simp [jwords, List.append_assoc]

theorem wordsAux_ne_nil (u : List Char) (cur : List Char) (h : cur ≠ []) :
    wordsAux cur u ≠ [] := by
  induction u generalizing cur with
  | nil =>
    have hc : cur.isEmpty = false := by simpa using h
    simp [wordsAux, hc]
  | cons c cs ih =>
    by_cases hws : c.isWhitespace
    · have hc : cur.isEmpty = false := by simpa using h
      simp [wordsAux, hws, hc]
    · simp only [wordsAux, hws, if_false]
      exact ih _ (by simp)

theorem wordsAux_nil_eq_nil_iff (u : List Char) :
    wordsAux [] u = [] ↔ u.all Char.isWhitespace = true := by
  induction u with
  | nil => simp [wordsAux]
  | cons c cs ih =>
    by_cases hws : c.isWhitespace
    · simpa [wordsAux, hws] using ih
    · simp [wordsAux, hws, wordsAux_ne_nil cs [c] (by simp)]

theorem collapseAux_false (b : Bool) (u : List Char) :
    collapseAux false b u = collapseAux false false u := by
  cases u with
  | nil => rfl
  | cons c cs => simp [collapseAux]

theorem collapseAux_true_true (u : List Char) :
    collapseAux true true u =
      if u.all Char.isWhitespace = true then [] else ' ' :: collapseAux false false u := by
  induction u with
  | nil => simp [collapseAux]
  | cons c cs ih =>
    by_cases hws : c.isWhitespace
    · rw [show collapseAux true true (c :: cs) = collapseAux true true cs from by
        simp [collapseAux, hws]]
      rw [ih]
      simp [List.all_cons, hws, collapseAux, collapseAux_false]
    · simp [collapseAux, hws, List.all_cons]

theorem jwords_wordsAux (u : List Char) :
    jwords (wordsAux [] u) = collapseAux false false u ∧
    ∀ cur : List Char, cur ≠ [] →
      jwords (wordsAux cur u) = cur.reverse ++ collapseAux true false u := by
  induction u with
  | nil =>
    refine ⟨rfl, fun cur hcur => ?_⟩
    have hc : cur.isEmpty = false := by simpa using hcur
    simp [wordsAux, hc, jwords, collapseAux]
  | cons c cs ih =>
    by_cases hws : c.isWhitespace
    · constructor
      · have h1 : wordsAux [] (c :: cs) = wordsAux [] cs := by simp [wordsAux, hws]
        have h2 : collapseAux false false (c :: cs) = collapseAux false false cs := by
          simp [collapseAux, hws, collapseAux_false]
        rw [h1, h2, ih.1]
      · intro cur hcur
        have hc : cur.isEmpty = false := by simpa using hcur
        have h1 : wordsAux cur (c :: cs) = cur.reverse :: wordsAux [] cs := by
          simp [wordsAux, hws, hc]
        have h2 : collapseAux true false (c :: cs) = collapseAux true true cs := by
          simp [collapseAux, hws]
        rw [h1, h2, jwords_cons, collapseAux_true_true]
        by_cases hall : cs.all Char.isWhitespace = true
        · have hn : wordsAux [] cs = [] := (wordsAux_nil_eq_nil_iff cs).mpr hall
          simp [hn, hall]
        · have hne : wordsAux [] cs ≠ [] := fun hh => hall ((wordsAux_nil_eq_nil_iff cs).mp hh)
          simp [hne, hall, ih.1]
    · constructor
      · have h1 : wordsAux [] (c :: cs) = wordsAux [c] cs := by simp [wordsAux, hws]
        have h2 : collapseAux false false (c :: cs) = c :: collapseAux true false cs := by
          simp [collapseAux, hws]
        rw [h1, h2, ih.2 [c] (by simp)]
        rfl
      · intro cur hcur
        have h1 : wordsAux cur (c :: cs) = wordsAux (c :: cur) cs := by simp [wordsAux, hws]
        have h2 : collapseAux true false (c :: cs) = c :: collapseAux true false cs := by
          simp [collapseAux, hws]
        rw [h1, h2, ih.2 (c :: cur) (by simp)]
        simp [List.append_assoc]

theorem normalizeLine_eq_specFingerprint (line : String) :
    normalizeLine line = specFingerprint line := by
  have h := (jwords_wordsAux ((pyLower line).data)).1
  calc normalizeLine line
      = String.mk ((pyJoinSpace ((wordsAux [] (pyLower line).data).map String.mk)).data) := rfl
    _ = String.mk (jwords (wordsAux [] (pyLower line).data)) := by rw [pyJoinSpace_data]
    _ = String.mk (collapseAux false false ((pyLower line).data)) := by rw [h]
    _ = specFingerprint line := rfl

/-- Claim C3: the fingerprint computed for a line is exactly the lowercase,
whitespace-collapsed form of that line (whitespace runs collapsed to single
spaces); consequently `"Foo   Bar"` and `"foo bar"` share a fingerprint and
the second is treated as a duplicate of the first by `check_for_keywords`. -/
theorem c3_fingerprint_normalization :
    (∀ line : String, normalizeLine line = specFingerprint line) ∧
    normalizeLine "Foo   Bar" = normalizeLine "foo bar" ∧
    (check_for_keywords ["foo"] "Foo   Bar\nfoo bar" ∅).1.2 = ["Foo   Bar"] :=
  ⟨normalizeLine_eq_specFingerprint, by decide, by decide⟩

/-- Claim C9: when the first of two same-fingerprint lines is reached with its
fingerprint not yet seen and it passes the keyword test, it is returned, its
fingerprint enters the in-memory set during the same pass, and no later line
with that fingerprint appears in the rest of the result. -/
theorem c9_first_occurrence_only (terms : List String) (seen : Finset String) (l₁ : String)
    (rest : List String) (h₁ : matchesLine terms l₁ = true) (h₂ : normalizeLine l₁ ∉ seen) :
    (checkLoop terms (l₁ :: rest) seen).1 =
      l₁ :: (checkLoop terms rest (insert (normalizeLine l₁) seen)).1 ∧
    ∀ l₂, normalizeLine l₂ = normalizeLine l₁ →
      l₂ ∉ (checkLoop terms rest (insert (normalizeLine l₁) seen)).1 := by
  constructor
  · simp [checkLoop, h₁, h₂]
  · intro l₂ hn
    exact checkLoop_not_mem_fst terms rest _ l₂ (by rw [hn]; exact Finset.mem_insert_self _ _)

/-- Witness for C9: with term `"foo"`, the lines `"Foo  Bar"` and `"foo bar"`
both match and share the fingerprint `"foo bar"`; only the first is returned. -/
theorem c9_first_occurrence_only_witness :
    matchesLine ["foo"] "Foo  Bar" = true ∧
    normalizeLine "Foo  Bar" ∉ (∅ : Finset String) ∧
    ((checkLoop ["foo"] ["Foo  Bar", "foo bar"] ∅).1 =
        "Foo  Bar" :: (checkLoop ["foo"] ["foo bar"] (insert (normalizeLine "Foo  Bar") ∅)).1 ∧
      ∀ l₂, normalizeLine l₂ = normalizeLine "Foo  Bar" →
        l₂ ∉ (checkLoop ["foo"] ["foo bar"] (insert (normalizeLine "Foo  Bar") ∅)).1) :=
  ⟨by decide, by decide, c9_first_occurrence_only _ _ _ _ (by decide) (by decide)⟩

/-- Claim C8: `load_seen_matches` is a total function of the file state — no
branch raises.  A missing record yields the empty set and writes a fresh
empty record; an unreadable or malformed record yields the empty set; and on
every file state the loaded set is either empty or the entries of a readable
record. -/
theorem c8_load_never_raises :
    load_seen_matches FileState.missing = (∅, FileState.valid []) ∧
    (load_seen_matches FileState.corrupt).1 = ∅ ∧
    ∀ fs : FileState, (load_seen_matches fs).1 = ∅ ∨
      ∃ entries, fs = FileState.valid entries ∧
        (load_seen_matches fs).1 = entries.toFinset := by
  refine ⟨rfl, rfl, fun fs => ?_⟩
  cases fs with
  | missing => exact Or.inl rfl
  | corrupt => exact Or.inl rfl
  | valid entries => exact Or.inr ⟨entries, rfl, rfl⟩

/-! ## The monitoring loop -/

theorem monitorIter_sleep (terms : List String) (interval : Nat) (inp : IterInput)
    (st : LoopState) (hinp : inp ≠ IterInput.unexpectedError) :
    (monitorIter terms interval inp st).2.1 =
      (backoffSleep interval (preSleepErrors terms inp st)).1 ∧
    (monitorIter terms interval inp st).1.consecutiveErrors =
      (backoffSleep interval (preSleepErrors terms inp st)).2 := by
  cases inp with
  | fetchFailed => exact ⟨rfl, rfl⟩
  | pageContent text emailOk => exact ⟨rfl, rfl⟩
  | unexpectedError => exact absurd rfl hinp

theorem check_events (terms : List String) (text : String) (seen : Finset String) :
    (check_for_keywords terms text seen).2.2 =
      if (check_for_keywords terms text seen).1.2 = [] then []
      else [Event.persist (check_for_keywords terms text seen).2.1] := by
  by_cases h : text = ""
  · simp [check_for_keywords, h]
  · simp only [check_for_keywords, if_neg h]
    by_cases he : (checkLoop terms (splitLines text) seen).1.isEmpty
    · simp [he, List.isEmpty_iff.mp he]
    · have hne : (checkLoop terms (splitLines text) seen).1 ≠ [] := by
        simpa [List.isEmpty_iff] using he
      simp [he, hne]

theorem monitorIter_events (terms : List String) (interval : Nat) (text : String)
    (emailOk : Bool) (st : LoopState) :
    (monitorIter terms interval (IterInput.pageContent text emailOk) st).2.2 =
      (check_for_keywords terms text st.seen).2.2 ++
        (if ((check_for_keywords terms text st.seen).1.2).isEmpty then []
          else [Event.emailAttempt (check_for_keywords terms text st.seen).1.2]) := rfl

/-- Claim C4: at the backoff decision of the loop (the sleep step of the two
non-exception paths), a counter above 5 produces a sleep of exactly twice the
configured interval and a counter reset to zero, while a counter of exactly 5
produces a normal-length sleep with the counter kept at 5 — backoff never
escalates beyond a flat doubling. -/
theorem c4_flat_backoff (terms : List String) (interval : Nat) (inp : IterInput)
    (st : LoopState) (hinp : inp ≠ IterInput.unexpectedError) :
    (preSleepErrors terms inp st > 5 →
      (monitorIter terms interval inp st).2.1 = interval * 2 ∧
      (monitorIter terms interval inp st).1.consecutiveErrors = 0) ∧
    (preSleepErrors terms inp st = 5 →
      (monitorIter terms interval inp st).2.1 = interval ∧
      (monitorIter terms interval inp st).1.consecutiveErrors = 5) := by
  obtain ⟨hs, he⟩ := monitorIter_sleep terms interval inp st hinp
  constructor
  · intro h
    rw [hs, he]
    simp [backoffSleep, h]
  · intro h
    rw [hs, he, h]
    exact ⟨rfl, rfl⟩

/-- Witness for C4: a counter of 7 before the failed fetch gives a doubled
sleep and a reset; a counter of 4 gives exactly 5 at the sleep step and a
normal sleep. -/
theorem c4_flat_backoff_witness :
    (IterInput.fetchFailed ≠ IterInput.unexpectedError) ∧
    preSleepErrors [] IterInput.fetchFailed ⟨∅, 7⟩ > 5 ∧
    ((monitorIter [] 300 IterInput.fetchFailed ⟨∅, 7⟩).2.1 = 300 * 2 ∧
      (monitorIter [] 300 IterInput.fetchFailed ⟨∅, 7⟩).1.consecutiveErrors = 0) ∧
    preSleepErrors [] IterInput.fetchFailed ⟨∅, 4⟩ = 5 ∧
    ((monitorIter [] 300 IterInput.fetchFailed ⟨∅, 4⟩).2.1 = 300 ∧
      (monitorIter [] 300 IterInput.fetchFailed ⟨∅, 4⟩).1.consecutiveErrors = 5) :=
  ⟨by decide, by decide,
    (c4_flat_backoff [] 300 IterInput.fetchFailed ⟨∅, 7⟩ (by decide)).1 (by decide),
    by decide,
    (c4_flat_backoff [] 300 IterInput.fetchFailed ⟨∅, 4⟩ (by decide)).2 (by decide)⟩

/-- Counterexample to C5 as stated: an iteration with a successful fetch and
check but a failed notification send leaves the counter at 1, not 0 — the
code increments on send failure (line 268). -/
theorem c5_counterexample :
    (check_for_keywords ["ab"] "ab" (∅ : Finset String)).1.2 = ["ab"] ∧
    preSleepErrors ["ab"] (IterInput.pageContent "ab" false) ⟨∅, 0⟩ = 1 ∧
    (monitorIter ["ab"] 300 (IterInput.pageContent "ab" false) ⟨∅, 0⟩).1.consecutiveErrors =
      1 := by
  decide

/-- Claim C5 (amended): in an iteration whose fetch succeeded and whose check
ran, the error counter reaching the sleep step is zero iff the check found no
new matches or the notification send succeeded; on a send failure with new
matches the counter is incremented instead. -/
theorem c5_reset_iff_no_new_or_send_ok (terms : List String) (text : String) (emailOk : Bool)
    (st : LoopState) :
    preSleepErrors terms (IterInput.pageContent text emailOk) st = 0 ↔
      (check_for_keywords terms text st.seen).1.2 = [] ∨ emailOk = true := by
  simp only [preSleepErrors]
  by_cases h : ((check_for_keywords terms text st.seen).1.2).isEmpty
  · simp [h, List.isEmpty_iff.mp h]
  · have hne : (check_for_keywords terms text st.seen).1.2 ≠ [] := by
      simpa [List.isEmpty_iff] using h
    by_cases he : emailOk
    · simp [h, he]
    · simp [h, he, hne]

/-- Claim C6: in an iteration whose check found new matches, the events are
exactly one persist of the full updated set followed by the email attempt —
the persist happens once per batch and before any notification; with no new
matches, no persist and no email occur. -/
theorem c6_persist_once_before_email (terms : List String) (interval : Nat) (text : String)
    (emailOk : Bool) (st : LoopState) :
    ((check_for_keywords terms text st.seen).1.2 ≠ [] →
      (monitorIter terms interval (IterInput.pageContent text emailOk) st).2.2 =
        [Event.persist (check_for_keywords terms text st.seen).2.1,
          Event.emailAttempt (check_for_keywords terms text st.seen).1.2]) ∧
    ((check_for_keywords terms text st.seen).1.2 = [] →
      (monitorIter terms interval (IterInput.pageContent text emailOk) st).2.2 = []) := by
  constructor
  · intro h
    rw [monitorIter_events, check_events]
    have he : ((check_for_keywords terms text st.seen).1.2).isEmpty = false := by
      simpa [List.isEmpty_iff] using h
    simp [h, he]
  · intro h
    rw [monitorIter_events, check_events]
    simp [h]

/-- Witness for C6: one new match produces exactly a persist then an email
attempt. -/
theorem c6_persist_once_before_email_witness :
    (check_for_keywords ["ab"] "ab" (∅ : Finset String)).1.2 ≠ [] ∧
    (monitorIter ["ab"] 300 (IterInput.pageContent "ab" true) ⟨∅, 0⟩).2.2 =
      [Event.persist (check_for_keywords ["ab"] "ab" (∅ : Finset String)).2.1,
        Event.emailAttempt (check_for_keywords ["ab"] "ab" (∅ : Finset String)).1.2] :=
  ⟨by decide, (c6_persist_once_before_email ["ab"] 300 "ab" true ⟨∅, 0⟩).1 (by decide)⟩

/-- Counterexample to C10 as stated: starting from the fresh loop (counter 0),
five fetch failures followed by two unexpected-exception iterations drive the
counter to 7 — the exception handler (lines 283–286) increments the counter
but bypasses the backoff decision that would reset it. -/
theorem c10_counterexample :
    (runIters [] 300
        [IterInput.fetchFailed, IterInput.fetchFailed, IterInput.fetchFailed,
          IterInput.fetchFailed, IterInput.fetchFailed, IterInput.unexpectedError,
          IterInput.unexpectedError] ⟨∅, 0⟩).consecutiveErrors = 7 := by
  decide

/-- Claim C10 (amended): in any iteration that does not take the
unexpected-exception path, a counter that is at most 5 rises to at most 6 at
the sleep decision, is at most 5 again afterwards, and the slept duration is
the configured interval or exactly twice it. -/
theorem c10_counter_bound (terms : List String) (interval : Nat) (inp : IterInput)
    (st : LoopState) (hinp : inp ≠ IterInput.unexpectedError)
    (hst : st.consecutiveErrors ≤ 5) :
    preSleepErrors terms inp st ≤ 6 ∧
    (monitorIter terms interval inp st).1.consecutiveErrors ≤ 5 ∧
    ((monitorIter terms interval inp st).2.1 = interval ∨
      (monitorIter terms interval inp st).2.1 = interval * 2) := by
  have hpre : preSleepErrors terms inp st ≤ 6 := by
    cases inp with
    | fetchFailed => simpa [preSleepErrors] using Nat.succ_le_succ hst
    | pageContent text emailOk =>
      simp only [preSleepErrors]
      split
      · omega
      · split <;> omega
    | unexpectedError => exact absurd rfl hinp
  obtain ⟨hs, he⟩ := monitorIter_sleep terms interval inp st hinp
  refine ⟨hpre, ?_, ?_⟩
  · rw [he]
    unfold backoffSleep
    split
    · simp
    · omega
  · rw [hs]
    unfold backoffSleep
    split
    · exact Or.inr rfl
    · exact Or.inl rfl

/-- Witness for C10 (amended): a counter of exactly 5 before a failed fetch
reaches 6 at the sleep decision, triggers the doubled sleep, and is reset. -/
theorem c10_counter_bound_witness :
    (IterInput.fetchFailed ≠ IterInput.unexpectedError) ∧
    ((⟨∅, 5⟩ : LoopState).consecutiveErrors ≤ 5) ∧
    (preSleepErrors [] IterInput.fetchFailed ⟨∅, 5⟩ ≤ 6 ∧
      (monitorIter [] 300 IterInput.fetchFailed ⟨∅, 5⟩).1.consecutiveErrors ≤ 5 ∧
      ((monitorIter [] 300 IterInput.fetchFailed ⟨∅, 5⟩).2.1 = 300 ∨
        (monitorIter [] 300 IterInput.fetchFailed ⟨∅, 5⟩).2.1 = 300 * 2)) :=
  ⟨by decide, by decide,
    c10_counter_bound [] 300 IterInput.fetchFailed ⟨∅, 5⟩ (by decide) (by decide)⟩

end WebMonitor
